import Mathlib

/-!
Verification development for the tracker-dashboard repository (src/app.py).

The Python source is shallowly embedded in Lean 4. Text processing is
modelled on `List Char` (Python `str` values), because Python string
primitives such as `split`, `strip` and `in` operate on character
sequences; `String` is used for opaque payloads (titles, transcript
texts) where only construction, concatenation and equality matter.
External effects (the captions API `YouTubeTranscriptApi.get_transcript`
and the `yt_dlp` scraper) are modelled as explicit function parameters;
an exception raised by a library call is modelled as an error value of
the corresponding result type.
-/

namespace Tracker

/-- Model of Python `str.startswith` used as a building block for
`str.split`: if `sep` is a prefix of `xs`, return the remainder. -/
def takesLead : List Char → List Char → Option (List Char)
  | [], xs => some xs
  | _ :: _, [] => none
  | c :: cs, x :: xs => if c = x then takesLead cs xs else none

/-- Locate the first occurrence of `sep` in `xs` (leftmost match, as
Python `str.split` does): returns the part before the match and the part
after it. -/
def firstSplit (sep : List Char) : List Char → Option (List Char × List Char)
  | [] => (takesLead sep []).map (fun r => ([], r))
  | c :: rest =>
    match takesLead sep (c :: rest) with
    | some r => some ([], r)
    | none => (firstSplit sep rest).map (fun p => (c :: p.1, p.2))

/-- Model of Python `sep in s` (substring containment). -/
def containsSeq (sep xs : List Char) : Bool := (firstSplit sep xs).isSome

/-- Fuel-indexed iteration of `firstSplit`, skipping occurrences of `sep`
left to right; the remaining suffix is Python `s.split(sep)[-1]`. -/
def pyAfterLastAux : Nat → List Char → List Char → List Char
  | 0, _, xs => xs
  | fuel + 1, sep, xs =>
    match firstSplit sep xs with
    | none => xs
    | some (_, s) => pyAfterLastAux fuel sep s

/-- Model of Python `s.split(sep)[-1]`: the suffix after the last
occurrence of `sep` (the whole string when `sep` does not occur). -/
def pyAfterLast (sep xs : List Char) : List Char := pyAfterLastAux xs.length sep xs

/-- Model of Python `s.split(sep)[0]`: the prefix before the first
occurrence of `sep` (the whole string when `sep` does not occur). -/
def pyBeforeFirst (sep xs : List Char) : List Char :=
  match firstSplit sep xs with
  | none => xs
  | some (p, _) => p

/-- Video-ID extraction of `get_transcript` (src/app.py lines 13-19):
`url.split('v=')[-1].split('&')[0]` when `'v='` occurs, else
`url.split('youtu.be/')[-1].split('?')[0]` when `'youtu.be/'` occurs,
else the whole input. -/
def extract_video_id (url : List Char) : List Char :=
  if containsSeq ("v=".data) url then
    pyBeforeFirst ['&'] (pyAfterLast ("v=".data) url)
  else if containsSeq ("youtu.be/".data) url then
    pyBeforeFirst ['?'] (pyAfterLast ("youtu.be/".data) url)
  else
    url

/-- String-typed wrapper for the extracted video ID. -/
def videoIdOf (url : String) : String := String.mk (extract_video_id url.data)

/-- One transcript entry returned by the captions API; the source only
reads its `text` field (`entry['text']`). -/
structure TranscriptEntry where
  text : String
deriving DecidableEq, Repr

/-- Outcome of a call to `YouTubeTranscriptApi.get_transcript`: a list of
entries, or one of the exceptions caught in src/app.py lines 28-39. -/
inductive ApiResult where
  | ok (entries : List TranscriptEntry)
  | transcriptsDisabled
  | noTranscriptFound
  | videoUnavailable
  | otherError (msg : String)
deriving DecidableEq, Repr

/-- Language preference list passed to the captions API
(src/app.py line 22). -/
def PREFERRED_LANGUAGES : List String := ["pt", "pt-BR", "en", "en-US"]

/-- True on every constructor that models a raised exception. -/
def isApiError : ApiResult → Bool
  | ApiResult.ok _ => false
  | _ => true

/-- Model of Python `"\n".join(texts)`. -/
def joinNewline : List String → String
  | [] => ""
  | [s] => s
  | s :: rest => s ++ "\n" ++ joinNewline rest

/-- Embedding of `get_transcript` (src/app.py lines 10-39). The captions
library is the parameter `api`; every exception branch returns `none`. -/
def get_transcript (api : String → List String → ApiResult)
    (video_url : String) : Option String :=
  let video_id := videoIdOf video_url
  match api video_id PREFERRED_LANGUAGES with
  | ApiResult.ok transcript => some (joinNewline (transcript.map TranscriptEntry.text))
  | _ => none

/-- External operations the dashboard could perform while fetching a
transcript. -/
inductive ExtCall where
  | captionsApi (videoId : String) (languages : List String)
  | captionFileDownload (videoId : String)
deriving DecidableEq, Repr

/-- Trace of external calls made by the body of `get_transcript`
(src/app.py lines 10-39): the body performs exactly one captions-API
request (line 22) and contains no caption-file download; the trace is
the same for every outcome of the call. -/
def get_transcript_calls (video_url : String) : List ExtCall :=
  [ExtCall.captionsApi (videoIdOf video_url) PREFERRED_LANGUAGES]

/- Correctness lemmas for the split primitives. -/

theorem takesLead_eq_some {sep xs r : List Char}
    (h : takesLead sep xs = some r) : xs = sep ++ r := by
  induction sep generalizing xs with
  | nil =>
    simp only [takesLead, Option.some.injEq] at h
    simp [h]
  | cons c cs ih =>
    cases xs with
    | nil => simp [takesLead] at h
    | cons x rest =>
      by_cases hc : c = x
      · subst hc
        simp only [takesLead, if_pos rfl] at h
        simpa using ih h
      · simp [takesLead, hc] at h

theorem takesLead_append (sep r : List Char) :
    takesLead sep (sep ++ r) = some r := by
  induction sep with
  | nil => simp [takesLead]
  | cons c cs ih => simp [takesLead, ih]

theorem firstSplit_eq_some {sep xs p s : List Char}
    (h : firstSplit sep xs = some (p, s)) : xs = p ++ sep ++ s := by
  induction xs generalizing p s with
  | nil =>
    simp only [firstSplit, Option.map_eq_some'] at h
    obtain ⟨r, hr, hpr⟩ := h
    have := takesLead_eq_some hr
    cases hpr
    simpa using this
  | cons c rest ih =>
    simp only [firstSplit] at h
    cases htp : takesLead sep (c :: rest) with
    | some r =>
      rw [htp] at h
      cases h
      simpa using takesLead_eq_some htp
    | none =>
      rw [htp] at h
      simp only [Option.map_eq_some'] at h
      obtain ⟨⟨p', s'⟩, hps, heq⟩ := h
      cases heq
      have := ih hps
      simp [this]

theorem firstSplit_cons_some {sep : List Char} {c : Char} {rest r : List Char}
    (h : takesLead sep (c :: rest) = some r) :
    firstSplit sep (c :: rest) = some ([], r) := by
  simp [firstSplit, h]

theorem firstSplit_cons_none {sep : List Char} {c : Char} {rest : List Char}
    (h : takesLead sep (c :: rest) = none) :
    firstSplit sep (c :: rest) = (firstSplit sep rest).map (fun p => (c :: p.1, p.2)) := by
  simp [firstSplit, h]

theorem firstSplit_isSome_of_takes {sep xs : List Char}
    (h : (takesLead sep xs).isSome = true) : (firstSplit sep xs).isSome = true := by
  cases xs with
  | nil =>
    rw [Option.isSome_iff_exists] at h
    obtain ⟨r, hr⟩ := h
    simp [firstSplit, hr]
  | cons c rest =>
    rw [Option.isSome_iff_exists] at h
    obtain ⟨r, hr⟩ := h
    simp [firstSplit_cons_some hr]

theorem firstSplit_isSome_append (sep : List Char) :
    ∀ a b : List Char, (firstSplit sep (a ++ sep ++ b)).isSome = true := by
  intro a
  induction a with
  | nil =>
    intro b
    refine firstSplit_isSome_of_takes ?_
    simp only [List.nil_append]
    rw [takesLead_append sep b]
    rfl
  | cons c a' ih =>
    intro b
    show (firstSplit sep (c :: (a' ++ sep ++ b))).isSome = true
    cases htp : takesLead sep (c :: (a' ++ sep ++ b)) with
    | some r => rw [firstSplit_cons_some htp]; rfl
    | none =>
      rw [firstSplit_cons_none htp]
      have hx := ih b
      cases hfs : firstSplit sep (a' ++ sep ++ b) with
      | none => rw [hfs] at hx; simp at hx
      | some p => simp [hfs]

theorem containsSeq_iff (sep xs : List Char) :
    containsSeq sep xs = true ↔ sep <:+: xs := by
  constructor
  · intro h
    rw [containsSeq, Option.isSome_iff_exists] at h
    obtain ⟨⟨p, s⟩, hps⟩ := h
    exact ⟨p, s, (firstSplit_eq_some hps).symm⟩
  · rintro ⟨a, b, hab⟩
    have := firstSplit_isSome_append sep a b
    rw [hab] at this
    exact this

theorem firstSplit_length_lt {sep xs p s : List Char} (hsep : sep ≠ [])
    (h : firstSplit sep xs = some (p, s)) : s.length < xs.length := by
  have hx := firstSplit_eq_some h
  have : 1 ≤ sep.length := by
    cases sep with
    | nil => exact absurd rfl hsep
    | cons c cs => simp
  subst hx
  simp only [List.length_append]
  omega

theorem pyAfterLastAux_spec (sep : List Char) (hsep : sep ≠ []) :
    ∀ fuel xs, xs.length ≤ fuel →
      (pyAfterLastAux fuel sep xs = xs ∧ ¬ sep <:+: xs) ∨
      (∃ a, xs = a ++ sep ++ pyAfterLastAux fuel sep xs ∧
        ¬ sep <:+: pyAfterLastAux fuel sep xs) := by
  intro fuel
  induction fuel with
  | zero =>
    intro xs hlen
    have hx : xs = [] := by
      cases xs with
      | nil => rfl
      | cons c rest => simp at hlen
    subst hx
    left
    refine ⟨rfl, fun hinf => ?_⟩
    have := hinf.sublist
    rw [List.sublist_nil] at this
    exact hsep this
  | succ fuel ih =>
    intro xs hlen
    cases hfs : firstSplit sep xs with
    | none =>
      left
      refine ⟨by simp [pyAfterLastAux, hfs], fun hinf => ?_⟩
      have := (containsSeq_iff sep xs).mpr hinf
      rw [containsSeq, hfs] at this
      simp at this
    | some ps =>
      obtain ⟨p, s⟩ := ps
      have hxs := firstSplit_eq_some hfs
      have hslen : s.length ≤ fuel := by
        have := firstSplit_length_lt hsep hfs
        omega
      have hres : pyAfterLastAux (fuel + 1) sep xs = pyAfterLastAux fuel sep s := by
        simp [pyAfterLastAux, hfs]
      rcases ih s hslen with ⟨heq, hni⟩ | ⟨a, hdecomp, hni⟩
      · right
        exact ⟨p, by rw [hres, heq]; exact hxs, by rw [hres, heq]; exact hni⟩
      · right
        refine ⟨p ++ sep ++ a, ?_, by rw [hres]; exact hni⟩
        rw [hres]
        conv_lhs => rw [hxs, hdecomp]
        simp [List.append_assoc]

theorem pyAfterLast_spec (sep xs : List Char) (hsep : sep ≠ []) :
    (pyAfterLast sep xs = xs ∧ ¬ sep <:+: xs) ∨
    (∃ a, xs = a ++ sep ++ pyAfterLast sep xs ∧ ¬ sep <:+: pyAfterLast sep xs) :=
  pyAfterLastAux_spec sep hsep xs.length xs le_rfl

theorem firstSplit_single_cons (c x : Char) (rest : List Char) :
    firstSplit [c] (x :: rest) =
      if x = c then some ([], rest)
      else (firstSplit [c] rest).map (fun p => (x :: p.1, p.2)) := by
  by_cases h : x = c
  · subst h
    simp [firstSplit, takesLead]
  · have h' : ¬ (c = x) := fun hh => h hh.symm
    simp [firstSplit, takesLead, h', h]

theorem pyBeforeFirst_single (c : Char) (xs : List Char) :
    pyBeforeFirst [c] xs = xs.takeWhile (fun x => !(x == c)) := by
  induction xs with
  | nil => rfl
  | cons x rest ih =>
    rw [pyBeforeFirst, firstSplit_single_cons]
    by_cases h : x = c
    · subst h
      simp [List.takeWhile_cons]
    · have hbeq : (x == c) = false := by simp [h]
      rw [List.takeWhile_cons, hbeq]
      rw [pyBeforeFirst] at ih
      cases hfs : firstSplit [c] rest with
      | none =>
        rw [hfs] at ih
        simp only at ih
        simp [h, hfs, ← ih]
      | some p =>
        obtain ⟨p1, p2⟩ := p
        rw [hfs] at ih
        simp only at ih
        simp [h, hfs, ← ih]

/- Formatting helpers (src/app.py lines 41-81). Python values reaching
these helpers are dynamically typed; the embedding gives each helper the
value domain its call sites and the claims concern (`None`, `int`,
`str`). -/

/-- Possible Python value for the `views` argument of `format_views`. -/
inductive ViewsVal where
  | none
  | int (n : Int)
  | str (s : String)
deriving DecidableEq, Repr

/-- Round the rational `n / d` (with `d > 0`) half to even. This is
both the IEEE-754 mantissa rounding of a real to a binary64 and the
rounding that correctly-rounded decimal conversion (CPython's float
formatting) applies to a float's exact binary value. -/
def round_half_even (n d : Int) : Int :=
  let q := Int.fdiv n d
  let r := n - q * d
  if 2 * r < d then q
  else if d < 2 * r then q + 1
  else if Int.emod q 2 = 0 then q else q + 1

/-- Render a nonnegative count of tenths as a fixed-point numeral with
one decimal place, as `f"{x:.1f}"` does for nonnegative `x`. -/
def format_tenths (t : Int) : String :=
  toString (Int.fdiv t 10) ++ "." ++ toString (Int.emod t 10)

/-- Fuel-driven floor of the base-2 logarithm (fuel at least the
argument suffices, since the argument halves at each step). -/
def log2floor : Nat → Nat → Nat
  | 0, _ => 0
  | fuel + 1, n => if 2 ≤ n then log2floor fuel (n / 2) + 1 else 0

/-- Floor of the base-2 logarithm of a positive natural number. -/
def log2f (n : Nat) : Nat := log2floor n n

/-- Model of CPython `f"{n/1_000_000:.1f}"` for an integer `n` with
`n >= 1_000_000`, computed in two exact stages, as CPython does.
Stage 1: true division `n / 10^6` is rounded to the nearest binary64:
with `k` the floor base-2 logarithm of the quotient, the 53-bit mantissa
is `n * 2^52 / (10^6 * 2^k)` rounded half to even (IEEE round to
nearest, ties to even), so the double's exact value is
`m * 2^k / 2^52`. The exponent is unbounded in the model; this agrees
with CPython for every input below the float overflow threshold near
1.8e314 (where CPython would raise `OverflowError`), far beyond any
view count. Stage 2: fixed-point formatting rounds the double's exact
value to one decimal digit, half to even (David Gay's correctly-rounded
conversion): the tenths count is `10 * m * 2^k / 2^52` rounded half to
even. -/
def format_float_div_million_1f (n : Nat) : String :=
  let k := log2f (n / 1000000)
  let m := round_half_even ((n : Int) * 2 ^ 52) (1000000 * 2 ^ k)
  let tenths := round_half_even (10 * m * 2 ^ k) (2 ^ 52)
  format_tenths tenths

/-- Embedding of `format_views` (src/app.py lines 41-45). A `str` input
is falsy when empty (first branch); a non-empty `str` reaches the
comparison `views >= 1_000_000`, which raises `TypeError` in Python:
that exception is the `Except.error` case. The `>= 1_000_000` branch is
the exact two-stage float model `format_float_div_million_1f`. The
`>= 1_000` branch `f"{views/1_000:.0f}"` is modelled as exact rational
rounding half to even, which coincides with the float computation on
its whole domain `[1000, 10^6)`: a tie of the `.0f` rounding is a
half-integer quotient, which is a dyadic rational that the division
`views/1000` produces exactly, while an off-tie quotient is at least
`1/2000` away from every rounding boundary, far above the relative
float error `2^-53`. -/
def format_views : ViewsVal → Except String String
  | ViewsVal.none => Except.ok "-"
  | ViewsVal.int n =>
    if n = 0 then Except.ok "-"
    else if 1000000 ≤ n then
      Except.ok (format_float_div_million_1f n.toNat ++ "M")
    else if 1000 ≤ n then
      Except.ok (toString (round_half_even n 1000) ++ "K")
    else Except.ok (toString n)
  | ViewsVal.str s => if s = "" then Except.ok "-" else Except.error "TypeError"

/-- Possible Python value for the `seconds` argument of
`format_duration`. -/
inductive DurVal where
  | none
  | int (n : Int)
  | str (s : String)
deriving DecidableEq, Repr

/-- Character-list trim used to model Python `str.strip()`. -/
def trimChars (xs : List Char) : List Char :=
  ((xs.dropWhile Char.isWhitespace).reverse.dropWhile Char.isWhitespace).reverse

/-- Numeric value of a decimal digit character. -/
def digitVal (c : Char) : Nat := c.toNat - 48

/-- Value of a nonempty decimal digit string. -/
def natFromDigits (l : List Char) : Nat := l.foldl (fun a c => 10 * a + digitVal c) 0

/-- Model of Python `int(s)` on a string: optional surrounding
whitespace, optional sign, then a nonempty run of decimal digits
(CPython underscore separators are not used by this repository's data
and are not modelled). `none` models the raised `ValueError`. -/
def pyIntOfString (s : String) : Option Int :=
  let t := trimChars s.data
  match t with
  | '+' :: rest =>
    if rest ≠ [] ∧ rest.all Char.isDigit then some (natFromDigits rest) else none
  | '-' :: rest =>
    if rest ≠ [] ∧ rest.all Char.isDigit then some (-(natFromDigits rest : Int)) else none
  | l => if l ≠ [] ∧ l.all Char.isDigit then some (natFromDigits l) else none

/-- Two-digit zero padding, as `%02d` for values in `[0, 60)`. -/
def pad2 (n : Int) : String := if n < 10 then "0" ++ toString n else toString n

/-- Model of CPython `str(datetime.timedelta(seconds=n))`: floor-divide
into days and a nonnegative remainder, print `H:MM:SS`, and prefix
`D day(s), ` when the day component is nonzero (singular exactly for
±1 day). -/
def timedeltaStr (n : Int) : String :=
  let d := Int.fdiv n 86400
  let r := n - 86400 * d
  let hh := Int.fdiv r 3600
  let mm := Int.fdiv (Int.emod r 3600) 60
  let ss := Int.emod r 60
  let base := toString hh ++ ":" ++ pad2 mm ++ ":" ++ pad2 ss
  if d = 0 then base
  else toString d ++ " day" ++ (if d = 1 ∨ d = -1 then "" else "s") ++ ", " ++ base

/-- CPython `timedelta` bound: the normalized day component must lie in
`[-999999999, 999999999]`, otherwise the constructor raises
`OverflowError` (caught by the bare `except` in `format_duration`). -/
def tdDaysOk (n : Int) : Bool :=
  decide (-999999999 ≤ Int.fdiv n 86400) && decide (Int.fdiv n 86400 ≤ 999999999)

/-- Embedding of `format_duration` (src/app.py lines 47-52): falsy input
gives `"-"`; otherwise `str(timedelta(seconds=int(seconds)))` is
returned, with every exception (unparseable string, timedelta overflow)
caught and mapped to `"-"`. -/
def format_duration : DurVal → String
  | DurVal.none => "-"
  | DurVal.int n =>
    if n = 0 then "-" else if tdDaysOk n then timedeltaStr n else "-"
  | DurVal.str s =>
    if s = "" then "-"
    else
      match pyIntOfString s with
      | some n => if tdDaysOk n then timedeltaStr n else "-"
      | none => "-"

/- Date parsing for `format_upload_date`, modelling CPython
`strptime(s, '%Y%m%d')`: `%Y` matches exactly four digits, `%m` matches
`1[0-2]|0[1-9]|[1-9]` and `%d` matches `3[01]|[12]\d|0[1-9]|[1-9]`, with
two-digit alternatives tried before one-digit ones and the whole string
required to be consumed; `datetime` then validates the calendar date
(year at least 1, day within the month). -/

/-- Regex alternative `1[0-2]|0[1-9]` (two-digit month). -/
def matchMonth2 (c1 c2 : Char) : Bool :=
  (c1 == '1' && (c2 == '0' || c2 == '1' || c2 == '2')) ||
  (c1 == '0' && c2.isDigit && !(c2 == '0'))

/-- Regex alternative `[1-9]` (one-digit month or day). -/
def matchDigit1 (c : Char) : Bool := c.isDigit && !(c == '0')

/-- Regex alternative `3[01]|[12]\d|0[1-9]` (two-digit day). -/
def matchDay2 (c1 c2 : Char) : Bool :=
  (c1 == '3' && (c2 == '0' || c2 == '1')) ||
  ((c1 == '1' || c1 == '2') && c2.isDigit) ||
  (c1 == '0' && c2.isDigit && !(c2 == '0'))

/-- Match the day field: two-digit alternatives first, then one digit. -/
def pDay : List Char → Option (Nat × List Char)
  | c1 :: c2 :: rest =>
    if matchDay2 c1 c2 then some (10 * digitVal c1 + digitVal c2, rest)
    else if matchDigit1 c1 then some (digitVal c1, c2 :: rest)
    else none
  | [c1] => if matchDigit1 c1 then some (digitVal c1, []) else none
  | [] => none

/-- Match month then day with regex backtracking order: the two-digit
month alternative is tried first; if no day match follows it, the
one-digit month alternative is tried. -/
def pMonthDay : List Char → Option (Nat × Nat × List Char)
  | c1 :: c2 :: rest =>
    if matchMonth2 c1 c2 then
      match pDay rest with
      | some (d, leftover) => some (10 * digitVal c1 + digitVal c2, d, leftover)
      | none =>
        if matchDigit1 c1 then
          (pDay (c2 :: rest)).map (fun p => (digitVal c1, p))
        else none
    else if matchDigit1 c1 then
      (pDay (c2 :: rest)).map (fun p => (digitVal c1, p))
    else none
  | _ => none

/-- Gregorian leap-year test, as `datetime` uses. -/
def isLeap (y : Int) : Bool :=
  (Int.emod y 4 == 0 && !(Int.emod y 100 == 0)) || Int.emod y 400 == 0

/-- Number of days in a month of the proleptic Gregorian calendar. -/
def daysInMonth (y m : Int) : Int :=
  if m = 2 then (if isLeap y then 29 else 28)
  else if m = 4 ∨ m = 6 ∨ m = 9 ∨ m = 11 then 30
  else 31

/-- Parse a `YYYYMMDD`-style string as `strptime('%Y%m%d')` followed by
`datetime` validation does; `none` models the raised `ValueError`. -/
def parseYYYYMMDD (s : String) : Option (Int × Int × Int) :=
  match s.data with
  | y1 :: y2 :: y3 :: y4 :: rest =>
    if y1.isDigit && y2.isDigit && y3.isDigit && y4.isDigit then
      let y : Int :=
        (1000 * digitVal y1 + 100 * digitVal y2 + 10 * digitVal y3 + digitVal y4 : Nat)
      match pMonthDay rest with
      | some (m, d, []) =>
        if 1 ≤ y ∧ (d : Int) ≤ daysInMonth y m then some (y, m, d) else none
      | _ => none
    else none
  | _ => none

/-- Day number of a proleptic Gregorian civil date, counted from
1970-01-01 (the standard `days_from_civil` computation underlying
`datetime` subtraction). -/
def daysFromCivil (y m d : Int) : Int :=
  let y' := if m ≤ 2 then y - 1 else y
  let era := Int.fdiv y' 400
  let yoe := y' - era * 400
  let mp := if 2 < m then m - 3 else m + 9
  let doy := Int.fdiv (153 * mp + 2) 5 + d - 1
  let doe := yoe * 365 + Int.fdiv yoe 4 - Int.fdiv yoe 100 + doy
  era * 146097 + doe - 719468

/-- Embedding of `format_upload_date` (src/app.py lines 54-81). The
current time enters only through `delta.days`, which equals the current
civil day number minus the upload date's day number (the time of day
cancels in the floor); it is passed as `nowDay`. Falsy input and the
literal `"NA"` give `"-"` before parsing; any parse failure is caught
and gives `"-"`. -/
def format_upload_date (nowDay : Int) (upload_date_str : Option String) : String :=
  match upload_date_str with
  | none => "-"
  | some s =>
    if s = "" then "-"
    else if s = "NA" then "-"
    else
      match parseYYYYMMDD s with
      | none => "-"
      | some (y, m, d) =>
        let days : Int := nowDay - daysFromCivil y m d
        if days = 0 then "Today"
        else if days = 1 then "1 day ago"
        else if days < 7 then toString days ++ " days ago"
        else if days < 30 then
          let weeks := Int.fdiv days 7
          toString weeks ++ " week" ++ (if 1 < weeks then "s" else "") ++ " ago"
        else if days < 365 then
          let months := Int.fdiv days 30
          toString months ++ " month" ++ (if 1 < months then "s" else "") ++ " ago"
        else
          let years := Int.fdiv days 365
          toString years ++ " year" ++ (if 1 < years then "s" else "") ++ " ago"

/- Data engine (src/app.py lines 112-198). -/

/-- The fixed category-to-channels configuration (src/app.py
lines 115-149). -/
def CATEGORIES : List (String × List String) :=
  [("Tech",
    ["https://www.youtube.com/@JordiVisserLabs/videos",
     "https://www.youtube.com/@peterdiamandis/videos",
     "https://www.youtube.com/@AcquiredFM/videos",
     "https://www.youtube.com/@ycombinator/videos",
     "https://www.youtube.com/@BitBiasedAI/videos",
     "https://www.youtube.com/@IBMTechnology/videos",
     "https://www.youtube.com/@ILTB_Podcast/videos",
     "https://www.youtube.com/@Stratechery/videos",
     "https://www.youtube.com/@GiantVentures/videos",
     "https://www.youtube.com/@PioneersofAI/videos",
     "https://www.youtube.com/@AIUpload/videos",
     "https://www.youtube.com/@NoPriorsPodcast/videos",
     "https://www.youtube.com/@MarinaWyssAI/videos",
     "https://www.youtube.com/@EverydayAI_/videos",
     "https://www.youtube.com/@CanalTech/videos"]),
   ("Macro",
    ["https://www.youtube.com/@BobEUnlimited/videos",
     "https://www.youtube.com/@macrovoices7508/videos",
     "https://www.youtube.com/@EconomistaSincero/videos",
     "https://www.youtube.com/@RichRP/videos"]),
   ("Geral",
    ["https://www.youtube.com/@StockPickers/videos",
     "https://www.youtube.com/@mmakers/videos",
     "https://www.youtube.com/@business/videos",
     "https://www.youtube.com/@wealthhighgovernance/videos",
     "https://www.youtube.com/@MastersofScale_/videos",
     "https://www.youtube.com/@allin/videos",
     "https://www.youtube.com/@PodcastFlow/videos",
     "https://www.youtube.com/@Podpah/videos"])]

/-- Options dictionary passed to `yt_dlp.YoutubeDL` (src/app.py
lines 157-168). -/
structure YdlOpts where
  extract_flat : String
  playlist_items : String
  quiet : Bool
  no_warnings : Bool
  ignoreerrors : Bool
deriving DecidableEq, Repr

/-- The concrete `ydl_opts` value of the source. -/
def ydl_opts : YdlOpts :=
  { extract_flat := "in_playlist"
    playlist_items := "1-7"
    quiet := true
    no_warnings := true
    ignoreerrors := true }

/-- Upper bound of a `'a-b'` playlist_items range. -/
def playlist_items_upper (s : String) : Option Nat :=
  match (pyAfterLast ['-'] s.data), (containsSeq ['-'] s.data) with
  | ds, true => if ds ≠ [] ∧ ds.all Char.isDigit then some (natFromDigits ds) else none
  | _, false => none

/-- One flat playlist entry as returned by the scraper; every field is
optional, as `v.get(...)` treats missing keys. -/
structure FlatEntry where
  id : Option String
  title : Option String
  view_count : Option Int
  duration : Option Int
  upload_date : Option String
deriving DecidableEq, Repr

/-- Result of a successful `ydl.extract_info` call: `entries` may be
absent (`info.get('entries', [])`) and may contain falsy members
(`if v:`), and the `channel` key may be absent. -/
structure ChannelInfo where
  channel : Option String
  entries : Option (List (Option FlatEntry))
deriving DecidableEq, Repr

/-- One video record appended by `get_channel_data`
(src/app.py lines 184-193). -/
structure Video where
  channel : String
  channel_url : String
  title : Option String
  url : String
  views : Option Int
  duration : Option Int
  upload_date : Option String
  id : Option String
deriving DecidableEq, Repr

/-- Python `f"...{vid_id}"` on an optional string: `None` prints as
`"None"`. -/
def pyStrOpt : Option String → String
  | some s => s
  | Option.none => "None"

/-- URL cleanup per channel (src/app.py lines 172-174):
`rstrip('/')` then append `'/videos'` unless already present. -/
def clean_channel_url (channel_url : String) : String :=
  let stripped := String.mk ((channel_url.data.reverse.dropWhile (fun c => c = '/')).reverse)
  if ("/videos".data).isSuffixOf stripped.data then stripped else stripped ++ "/videos"

/-- Videos contributed by one channel (the body of the `for channel_url`
loop, src/app.py lines 171-196). The scraper is the parameter `scrape`;
`none` models a raised exception (or `extract_info` returning `None`
under `ignoreerrors`, which makes `info.get` raise), handled by the
`except` that skips the channel. -/
def channel_videos (scrape : YdlOpts → String → Option ChannelInfo)
    (channel_url : String) : List Video :=
  let clean := clean_channel_url channel_url
  match scrape ydl_opts clean with
  | Option.none => []
  | some info =>
    let channel_title := info.channel.getD (String.mk (pyAfterLast ['@'] clean.data))
    (info.entries.getD []).filterMap (fun ov =>
      ov.map (fun v =>
        { channel := channel_title
          channel_url := channel_url
          title := v.title
          url := "https://www.youtube.com/watch?v=" ++ pyStrOpt v.id
          views := v.view_count
          duration := v.duration
          upload_date := v.upload_date
          id := v.id }))

/-- Embedding of `get_channel_data` (src/app.py lines 152-198).
`CATEGORIES[category_name]` raises `KeyError` for an unknown key, which
nothing catches; that is the `none` case. -/
def get_channel_data (scrape : YdlOpts → String → Option ChannelInfo)
    (category_name : String) : Option (List Video) :=
  (CATEGORIES.lookup category_name).map
    (fun channels => (channels.map (channel_videos scrape)).flatten)

/- Transcript session state (src/app.py lines 200-202 and 266-291). -/

/-- The `st.session_state.transcripts` dictionary, as a key-to-value
map. -/
def Transcripts := String → Option String

/-- Dictionary assignment `st.session_state.transcripts[key] = value`. -/
def setKey (m : Transcripts) (k v : String) : Transcripts :=
  fun k' => if k' = k then some v else m k'

/-- The per-video key `f"transcript_{v['id']}"` (src/app.py line 269). -/
def transcript_key (v : Video) : String := "transcript_" ++ pyStrOpt v.id

/-- Handler run when the fetch-transcript button of video `v` is clicked
(src/app.py lines 272-278): fetch, then store the text under the video's
key when it is non-empty after stripping, else store `"ERROR"`. -/
def handle_fetch_click (api : String → List String → ApiResult)
    (st : Transcripts) (v : Video) : Transcripts :=
  match get_transcript api v.url with
  | some content =>
    if 0 < (trimChars content.data).length then setKey st (transcript_key v) content
    else setKey st (transcript_key v) "ERROR"
  | Option.none => setKey st (transcript_key v) "ERROR"

/- Extractive summarizer. -/

/-- Split a character sequence at every character satisfying `p`
(separators dropped), accumulating the current piece. -/
def splitOnPredAux (p : Char → Bool) : List Char → List Char → List (List Char)
  | [], acc => [acc.reverse]
  | c :: rest, acc =>
    if p c then acc.reverse :: splitOnPredAux p rest []
    else splitOnPredAux p rest (c :: acc)

/-- Piece list of a character sequence split at `p`. -/
def splitOnPred (p : Char → Bool) (xs : List Char) : List (List Char) :=
  splitOnPredAux p xs []

/-- Modelled from the spec: sentence segmentation of the extractive
summarizer `summarize_transcript`, which is not part of src/app.py (the
spec describes it from other iterations of this repository). A
transcript is split into sentences at periods; pieces are stripped and
empty pieces dropped. -/
def split_sentences (text : List Char) : List (List Char) :=
  ((splitOnPred (fun c => c = '.') text).map trimChars).filter (fun s => !s.isEmpty)

/-- Modelled from the spec: tokenization step of `summarize_transcript`
(not in src/app.py): lowercase, split on non-alphanumeric characters,
drop empty tokens. -/
def tokenize_words (xs : List Char) : List (List Char) :=
  (splitOnPred (fun c => !c.isAlphanum) (xs.map Char.toLower)).filter (fun w => !w.isEmpty)

/-- Modelled from the spec: the stop-word list of `summarize_transcript`
(not in src/app.py). -/
def STOP_WORDS : List (List Char) :=
  (["the", "a", "an", "and", "or", "but", "if", "then", "is", "are", "was",
    "were", "be", "to", "of", "in", "on", "for", "with", "that", "this",
    "it", "as", "at", "by", "from"].map String.data)

/-- Modelled from the spec: stop-word filtering step of
`summarize_transcript` (not in src/app.py). -/
def content_words (xs : List Char) : List (List Char) :=
  (tokenize_words xs).filter (fun w => !(STOP_WORDS.contains w))

/-- Modelled from the spec: term-frequency score of one sentence in
`summarize_transcript` (not in src/app.py): the sum over the sentence's
content words of their frequency in the whole transcript's content
words. -/
def sentence_score (corpus : List (List Char)) (s : List Char) : Nat :=
  ((content_words s).map (fun w => corpus.count w)).sum

/-- Modelled from the spec: index-score pairs of all sentences of the
transcript in `summarize_transcript` (not in src/app.py). -/
def scored_sentences (text : List Char) : List (Nat × Nat) :=
  (split_sentences text).enum.map
    (fun p => (p.1, sentence_score (content_words text) p.2))

/-- Stable descending insertion by score (ties keep earlier sentences
first). -/
def insertDesc (x : Nat × Nat) : List (Nat × Nat) → List (Nat × Nat)
  | [] => [x]
  | y :: ys => if y.2 < x.2 then x :: y :: ys else y :: insertDesc x ys

/-- Modelled from the spec: ranking step of `summarize_transcript`
(not in src/app.py): sentences ordered by descending score. -/
def rank_desc : List (Nat × Nat) → List (Nat × Nat)
  | [] => []
  | x :: xs => insertDesc x (rank_desc xs)

/-- Modelled from the spec: top-k selection step of
`summarize_transcript` (not in src/app.py): indices of the `k`
highest-scoring sentences. -/
def top_k_indices (k : Nat) (text : List Char) : List Nat :=
  ((rank_desc (scored_sentences text)).take k).map Prod.fst

/-- Modelled from the spec: original-order restoration step of
`summarize_transcript` (not in src/app.py): keep, in original order, the
sentences whose index was selected. -/
def restore_order (sents : List (List Char)) (idxs : List Nat) : List (List Char) :=
  (sents.enum.filter (fun p => idxs.contains p.1)).map Prod.snd

/-- Modelled from the spec: the extractive summarizer
`summarize_transcript` (not in src/app.py): tokenization, stop-word
filtering, term-frequency scoring of sentences, and top-k sentence
selection with original-order restoration. -/
def summarize_transcript (text : List Char) (k : Nat) : List (List Char) :=
  let sents := ((splitOnPred (fun c => c = '.') text).map trimChars).filter (fun s => !s.isEmpty)
  let corpus :=
    ((splitOnPred (fun c => !c.isAlphanum) (text.map Char.toLower)).filter
      (fun w => !w.isEmpty)).filter (fun w => !(STOP_WORDS.contains w))
  let scored := sents.enum.map
    (fun p =>
      (p.1,
       ((((splitOnPred (fun c => !c.isAlphanum) (p.2.map Char.toLower)).filter
            (fun w => !w.isEmpty)).filter (fun w => !(STOP_WORDS.contains w))).map
          (fun w => corpus.count w)).sum))
  let chosen := ((rank_desc scored).take k).map Prod.fst
  (sents.enum.filter (fun p => chosen.contains p.1)).map Prod.snd

/- Helper lemmas shared by the claim theorems. -/

theorem get_transcript_of_ok {api : String → List String → ApiResult} {url : String}
    {entries : List TranscriptEntry}
    (h : api (videoIdOf url) PREFERRED_LANGUAGES = ApiResult.ok entries) :
    get_transcript api url = some (joinNewline (entries.map TranscriptEntry.text)) := by
  simp [get_transcript, h]

theorem get_transcript_of_err {api : String → List String → ApiResult} {url : String}
    (h : isApiError (api (videoIdOf url) PREFERRED_LANGUAGES) = true) :
    get_transcript api url = Option.none := by
  cases hres : api (videoIdOf url) PREFERRED_LANGUAGES with
  | ok entries => rw [hres] at h; simp [isApiError] at h
  | transcriptsDisabled => simp [get_transcript, hres]
  | noTranscriptFound => simp [get_transcript, hres]
  | videoUnavailable => simp [get_transcript, hres]
  | otherError m => simp [get_transcript, hres]

theorem summarize_transcript_eq_stages (text : List Char) (k : Nat) :
    summarize_transcript text k =
      restore_order (split_sentences text) (top_k_indices k text) := rfl

theorem restore_order_sublist (sents : List (List Char)) (idxs : List Nat) :
    List.Sublist (restore_order sents idxs) sents := by
  have h : List.Sublist
      (List.filter (fun p => idxs.contains p.1) sents.enum) sents.enum :=
    List.filter_sublist sents.enum
  have h2 := h.map Prod.snd
  rw [List.enum_map_snd] at h2
  exact h2

theorem channel_videos_channel_url {scrape : YdlOpts → String → Option ChannelInfo}
    {c : String} {v : Video} (hv : v ∈ channel_videos scrape c) :
    v.channel_url = c := by
  simp only [channel_videos] at hv
  cases hs : scrape ydl_opts (clean_channel_url c) with
  | none => rw [hs] at hv; simp at hv
  | some info =>
    rw [hs] at hv
    simp only [List.mem_filterMap] at hv
    obtain ⟨ov, hov, hmap⟩ := hv
    rw [Option.map_eq_some'] at hmap
    obtain ⟨fe, hfe, hv'⟩ := hmap
    rw [← hv']

/- Claim theorems. -/

/-- C1: the extractive summarizer `summarize_transcript` proceeds, for
every transcript, by tokenization, stop-word filtering, term-frequency
scoring of sentences, and top-k selection with original-order
restoration (tokenize, then score, then rank, then reorder); on a
concrete transcript the two highest-scoring sentences are returned in
original order. -/
theorem C1_summarizer_stages :
    (∀ (text : List Char) (k : Nat),
      summarize_transcript text k =
        restore_order (split_sentences text) (top_k_indices k text)) ∧
    summarize_transcript ("the cat sat. dogs run fast. cat cat cat.".data) 2 =
      ["the cat sat".data, "cat cat cat".data] :=
  ⟨summarize_transcript_eq_stages, by decide⟩

/-- C2: for every input text and every k, the extractive summary is a
sublist of the original sentence list: each selected sentence appears
unmodified and the selected sentences keep their original order. -/
theorem C2_summary_sublist (text : List Char) (k : Nat) :
    List.Sublist (summarize_transcript text k) (split_sentences text) := by
  rw [summarize_transcript_eq_stages]
  exact restore_order_sublist (split_sentences text) (top_k_indices k text)

/-- C3 counterexample: with the captions API unavailable (every call
raises), `get_transcript` on a concrete URL performs its single
captions-API request, never performs a caption-file download, and
returns `None` — it does not fall back to caption-file download and
parsing as the claim states. -/
theorem C3_fallback_cex :
    get_transcript_calls "https://youtu.be/abc" =
      [ExtCall.captionsApi "abc" PREFERRED_LANGUAGES]
    ∧ (ExtCall.captionFileDownload "abc" ∉ get_transcript_calls "https://youtu.be/abc")
    ∧ get_transcript (fun _ _ => ApiResult.otherError "service unavailable")
        "https://youtu.be/abc" = Option.none := by
  refine ⟨rfl, by decide, rfl⟩

/-- C3 amended: for every video URL, `get_transcript` performs exactly
one external request — a captions-API call with the language preference
list `['pt', 'pt-BR', 'en', 'en-US']` — performs no caption-file
download, and returns `None` whenever that single call raises. -/
theorem C3_single_api_call (url : String) (api : String → List String → ApiResult)
    (h : isApiError (api (videoIdOf url) PREFERRED_LANGUAGES) = true) :
    get_transcript_calls url =
      [ExtCall.captionsApi (videoIdOf url) PREFERRED_LANGUAGES]
    ∧ (∀ vid, ExtCall.captionFileDownload vid ∉ get_transcript_calls url)
    ∧ get_transcript api url = Option.none := by
  refine ⟨rfl, ?_, get_transcript_of_err h⟩
  intro vid hmem
  simp [get_transcript_calls] at hmem

/-- Witness for C3 amended at a concrete URL and a failing API. -/
theorem C3_single_api_call_witness :
    (ExtCall.captionFileDownload "abc" ∉ get_transcript_calls "u")
    ∧ get_transcript (fun _ _ => ApiResult.videoUnavailable) "u" = Option.none :=
  ⟨(C3_single_api_call "u" (fun _ _ => ApiResult.videoUnavailable) rfl).2.1 "abc",
   (C3_single_api_call "u" (fun _ _ => ApiResult.videoUnavailable) rfl).2.2⟩

/-- C4: for every URL and every behaviour of the captions library,
`get_transcript` never propagates an exception: it returns the entries'
text fields joined with newlines on success, and `None` whenever the
library raises any exception. -/
theorem C4_get_transcript_total (api : String → List String → ApiResult) (url : String) :
    (∀ entries, api (videoIdOf url) PREFERRED_LANGUAGES = ApiResult.ok entries →
      get_transcript api url = some (joinNewline (entries.map TranscriptEntry.text)))
    ∧ (isApiError (api (videoIdOf url) PREFERRED_LANGUAGES) = true →
      get_transcript api url = Option.none) :=
  ⟨fun _ h => get_transcript_of_ok h, fun h => get_transcript_of_err h⟩

/-- Witness for C4 on a concrete successful API and a concrete failing
API. -/
theorem C4_get_transcript_total_witness :
    get_transcript (fun _ _ => ApiResult.ok [⟨"a"⟩, ⟨"b"⟩]) "x" =
      some (joinNewline ([⟨"a"⟩, ⟨"b"⟩].map TranscriptEntry.text))
    ∧ get_transcript (fun _ _ => ApiResult.transcriptsDisabled) "x" = Option.none :=
  ⟨(C4_get_transcript_total (fun _ _ => ApiResult.ok [⟨"a"⟩, ⟨"b"⟩]) "x").1
      [⟨"a"⟩, ⟨"b"⟩] rfl,
   (C4_get_transcript_total (fun _ _ => ApiResult.transcriptsDisabled) "x").2 rfl⟩

/-- C8: for every URL, the extracted video ID is: when `'v='` occurs,
the suffix after the last occurrence of `'v='` truncated at the first
`'&'`; otherwise, when `'youtu.be/'` occurs, the suffix after it
truncated at the first `'?'`; otherwise the whole input. -/
theorem C8_video_id_extraction (url : List Char) :
    (("v=".data <:+: url) →
      (∃ a, url = a ++ "v=".data ++ pyAfterLast ("v=".data) url
        ∧ ¬ ("v=".data <:+: pyAfterLast ("v=".data) url))
      ∧ extract_video_id url =
          (pyAfterLast ("v=".data) url).takeWhile (fun c => !(c == '&')))
    ∧ (¬ ("v=".data <:+: url) → ("youtu.be/".data <:+: url) →
      (∃ a, url = a ++ "youtu.be/".data ++ pyAfterLast ("youtu.be/".data) url
        ∧ ¬ ("youtu.be/".data <:+: pyAfterLast ("youtu.be/".data) url))
      ∧ extract_video_id url =
          (pyAfterLast ("youtu.be/".data) url).takeWhile (fun c => !(c == '?')))
    ∧ (¬ ("v=".data <:+: url) → ¬ ("youtu.be/".data <:+: url) →
      extract_video_id url = url) := by
  refine ⟨?_, ?_, ?_⟩
  · intro hin
    have hcs : containsSeq ("v=".data) url = true := (containsSeq_iff _ _).mpr hin
    refine ⟨?_, ?_⟩
    · rcases pyAfterLast_spec ("v=".data) url (by decide) with ⟨heq, hni⟩ | ⟨a, hdec, hni⟩
      · exact absurd hin hni
      · exact ⟨a, hdec, hni⟩
    · simp [extract_video_id, hcs, pyBeforeFirst_single]
  · intro hnin hin
    have hcs1 : containsSeq ("v=".data) url = false := by
      cases hb : containsSeq ("v=".data) url with
      | false => rfl
      | true => exact absurd ((containsSeq_iff _ _).mp hb) hnin
    have hcs2 : containsSeq ("youtu.be/".data) url = true := (containsSeq_iff _ _).mpr hin
    refine ⟨?_, ?_⟩
    · rcases pyAfterLast_spec ("youtu.be/".data) url (by decide) with ⟨heq, hni⟩ | ⟨a, hdec, hni⟩
      · exact absurd hin hni
      · exact ⟨a, hdec, hni⟩
    · simp [extract_video_id, hcs1, hcs2, pyBeforeFirst_single]
  · intro hnin1 hnin2
    have hcs1 : containsSeq ("v=".data) url = false := by
      cases hb : containsSeq ("v=".data) url with
      | false => rfl
      | true => exact absurd ((containsSeq_iff _ _).mp hb) hnin1
    have hcs2 : containsSeq ("youtu.be/".data) url = false := by
      cases hb : containsSeq ("youtu.be/".data) url with
      | false => rfl
      | true => exact absurd ((containsSeq_iff _ _).mp hb) hnin2
    simp [extract_video_id, hcs1, hcs2]

/-- Witness for C8 at a concrete watch URL containing `'v='` and a
trailing query parameter. -/
theorem C8_video_id_extraction_witness :
    (∃ a, "https://www.youtube.com/watch?v=abc123&t=5".data =
        a ++ "v=".data ++
          pyAfterLast ("v=".data) ("https://www.youtube.com/watch?v=abc123&t=5".data)
      ∧ ¬ ("v=".data <:+:
          pyAfterLast ("v=".data) ("https://www.youtube.com/watch?v=abc123&t=5".data)))
    ∧ extract_video_id ("https://www.youtube.com/watch?v=abc123&t=5".data) =
        (pyAfterLast ("v=".data)
          ("https://www.youtube.com/watch?v=abc123&t=5".data)).takeWhile
          (fun c => !(c == '&')) :=
  (C8_video_id_extraction ("https://www.youtube.com/watch?v=abc123&t=5".data)).1
    (by decide)

/-- C5: for every scraper behaviour and every category name present in
`CATEGORIES`, `get_channel_data` returns exactly the concatenation of
the per-channel video lists of that category's configured channels;
every returned video carries a `channel_url` belonging to the category,
and a scraping failure on a channel contributes the empty list for that
channel only. -/
theorem C5_channel_membership (scrape : YdlOpts → String → Option ChannelInfo)
    (name : String) (chans : List String)
    (h : CATEGORIES.lookup name = some chans) :
    get_channel_data scrape name = some ((chans.map (channel_videos scrape)).flatten)
    ∧ (∀ vids, get_channel_data scrape name = some vids →
        ∀ v ∈ vids, v.channel_url ∈ chans)
    ∧ (∀ c, scrape ydl_opts (clean_channel_url c) = Option.none →
        channel_videos scrape c = []) := by
  refine ⟨by simp [get_channel_data, h], ?_, ?_⟩
  · intro vids hvids v hv
    rw [get_channel_data, h] at hvids
    simp only [Option.map_some', Option.some.injEq] at hvids
    subst hvids
    rw [List.mem_flatten] at hv
    obtain ⟨l, hl, hvl⟩ := hv
    rw [List.mem_map] at hl
    obtain ⟨c, hc, rfl⟩ := hl
    rw [channel_videos_channel_url hvl]
    exact hc
  · intro c hc
    simp [channel_videos, hc]

/-- Witness for C5 on the `Macro` category with an always-failing
scraper. -/
theorem C5_channel_membership_witness :
    get_channel_data (fun _ _ => Option.none) "Macro" =
      some ((["https://www.youtube.com/@BobEUnlimited/videos",
              "https://www.youtube.com/@macrovoices7508/videos",
              "https://www.youtube.com/@EconomistaSincero/videos",
              "https://www.youtube.com/@RichRP/videos"].map
        (channel_videos (fun _ _ => Option.none))).flatten) :=
  (C5_channel_membership (fun _ _ => Option.none) "Macro"
    ["https://www.youtube.com/@BobEUnlimited/videos",
     "https://www.youtube.com/@macrovoices7508/videos",
     "https://www.youtube.com/@EconomistaSincero/videos",
     "https://www.youtube.com/@RichRP/videos"] (by decide)).1

/-- C9: the scraper options request playlist items `'1-7'`, and for
every scraper that honours the requested range bound (returning at most
`7` entries per channel page), every channel contributes at most 7
videos to the result. -/
theorem C9_at_most_seven (scrape : YdlOpts → String → Option ChannelInfo)
    (hbound : ∀ o url info, scrape o url = some info →
      ∀ n, playlist_items_upper o.playlist_items = some n →
        (info.entries.getD []).length ≤ n) :
    ydl_opts.playlist_items = "1-7" ∧
    ∀ c, (channel_videos scrape c).length ≤ 7 := by
  refine ⟨rfl, ?_⟩
  intro c
  cases hs : scrape ydl_opts (clean_channel_url c) with
  | none => simp [channel_videos, hs]
  | some info =>
    have hup : playlist_items_upper ydl_opts.playlist_items = some 7 := by decide
    have hlen := hbound ydl_opts (clean_channel_url c) info hs 7 hup
    have hle : (channel_videos scrape c).length ≤ (info.entries.getD []).length := by
      simp only [channel_videos, hs]
      exact List.length_filterMap_le _ _
    omega

/-- Witness for C9 with an always-failing scraper (which trivially
honours the bound). -/
theorem C9_at_most_seven_witness :
    ydl_opts.playlist_items = "1-7" ∧
    (channel_videos (fun _ _ => Option.none) "c").length ≤ 7 :=
  ⟨(C9_at_most_seven (fun _ _ => Option.none) (fun _ _ _ h => nomatch h)).1,
   (C9_at_most_seven (fun _ _ => Option.none) (fun _ _ _ h => nomatch h)).2 "c"⟩

/-- Concrete video used to exercise the fetch-button handler. -/
def cexVideo : Video :=
  { channel := "c"
    channel_url := "u"
    title := Option.none
    url := "https://youtu.be/abc"
    views := Option.none
    duration := Option.none
    upload_date := Option.none
    id := some "abc" }

/-- C6 counterexample: a whitespace-only fetched transcript is non-empty
text, yet the handler stores the sentinel `"ERROR"` rather than the
fetched text, because the code tests `len(content.strip()) > 0`. -/
theorem C6_store_cex :
    get_transcript (fun _ _ => ApiResult.ok [⟨" "⟩]) cexVideo.url = some " "
    ∧ (" " : String) ≠ ""
    ∧ handle_fetch_click (fun _ _ => ApiResult.ok [⟨" "⟩]) (fun _ => Option.none)
        cexVideo (transcript_key cexVideo) = some "ERROR"
    ∧ ("ERROR" : String) ≠ " " :=
  ⟨rfl, by decide, rfl, by decide⟩

/-- C6 amended: clicking the fetch button for video `v` changes
`st.session_state.transcripts` at exactly the key
`'transcript_<v.id>'` — storing the fetched text when it is non-empty
after stripping whitespace and the sentinel `"ERROR"` otherwise — and
leaves every other key unchanged. -/
theorem C6_session_state_update (api : String → List String → ApiResult)
    (st : Transcripts) (v : Video) :
    (∀ k, k ≠ transcript_key v → handle_fetch_click api st v k = st k)
    ∧ (∀ s, get_transcript api v.url = some s → 0 < (trimChars s.data).length →
        handle_fetch_click api st v (transcript_key v) = some s)
    ∧ (get_transcript api v.url = Option.none →
        handle_fetch_click api st v (transcript_key v) = some "ERROR")
    ∧ (∀ s, get_transcript api v.url = some s → (trimChars s.data).length = 0 →
        handle_fetch_click api st v (transcript_key v) = some "ERROR") := by
  refine ⟨?_, ?_, ?_, ?_⟩
  · intro k hk
    cases hres : get_transcript api v.url with
    | none => simp [handle_fetch_click, hres, setKey, hk]
    | some s =>
      by_cases ht : 0 < (trimChars s.data).length
      · simp [handle_fetch_click, hres, ht, setKey, hk]
      · simp [handle_fetch_click, hres, ht, setKey, hk]
  · intro s hs ht
    simp [handle_fetch_click, hs, ht, setKey]
  · intro hres
    simp [handle_fetch_click, hres, setKey]
  · intro s hs ht
    have ht' : ¬ 0 < (trimChars s.data).length := by omega
    simp [handle_fetch_click, hs, ht', setKey]

/-- Witness for C6 amended: a fetch that succeeds with non-blank text is
stored at the video's key, and an unrelated key is untouched. -/
theorem C6_session_state_update_witness :
    handle_fetch_click (fun _ _ => ApiResult.ok [⟨"hi"⟩]) (fun _ => Option.none)
      cexVideo "other" = Option.none
    ∧ handle_fetch_click (fun _ _ => ApiResult.ok [⟨"hi"⟩]) (fun _ => Option.none)
        cexVideo (transcript_key cexVideo) = some "hi" :=
  ⟨(C6_session_state_update (fun _ _ => ApiResult.ok [⟨"hi"⟩]) (fun _ => Option.none)
      cexVideo).1 "other" (by decide),
   (C6_session_state_update (fun _ _ => ApiResult.ok [⟨"hi"⟩]) (fun _ => Option.none)
      cexVideo).2.1 "hi" rfl (by decide)⟩

/-- C7 counterexample: `format_views` is not total on every input — on
the truthy non-numeric string `'NA'` the comparison
`views >= 1_000_000` raises `TypeError` instead of returning a
string. -/
theorem C7_total_cex :
    format_views (ViewsVal.str "NA") = Except.error "TypeError"
    ∧ ("NA" : String) ≠ "" :=
  ⟨rfl, by decide⟩

/-- C7 amended: `format_duration` and `format_upload_date` are total and
yield `'-'` for missing or invalid input (`None`, `0`, the empty string,
`'NA'`, unparseable values); `format_views` yields `'-'` for `None` or
`0` and a string for every integer input, but raises `TypeError` on a
truthy non-numeric input such as `'NA'`. -/
theorem C7_formatters_total :
    (format_views ViewsVal.none = Except.ok "-")
    ∧ (format_views (ViewsVal.int 0) = Except.ok "-")
    ∧ (∀ n : Int, ∃ s, format_views (ViewsVal.int n) = Except.ok s)
    ∧ (format_duration DurVal.none = "-")
    ∧ (format_duration (DurVal.int 0) = "-")
    ∧ (format_duration (DurVal.str "") = "-")
    ∧ (∀ s, pyIntOfString s = Option.none → format_duration (DurVal.str s) = "-")
    ∧ (∀ now, format_upload_date now Option.none = "-")
    ∧ (∀ now, format_upload_date now (some "") = "-")
    ∧ (∀ now, format_upload_date now (some "NA") = "-")
    ∧ (∀ now s, parseYYYYMMDD s = Option.none →
        format_upload_date now (some s) = "-") := by
  refine ⟨rfl, rfl, ?_, rfl, rfl, rfl, ?_, fun _ => rfl, fun _ => rfl, fun _ => rfl, ?_⟩
  · intro n
    by_cases h0 : n = 0
    · exact ⟨"-", by simp [format_views, h0]⟩
    · by_cases h1 : 1000000 ≤ n
      · exact ⟨format_float_div_million_1f n.toNat ++ "M",
          by simp [format_views, h0, h1]⟩
      · by_cases h2 : 1000 ≤ n
        · exact ⟨toString (round_half_even n 1000) ++ "K",
            by simp [format_views, h0, h1, h2]⟩
        · exact ⟨toString n, by simp [format_views, h0, h1, h2]⟩
  · intro s hs
    by_cases he : s = ""
    · simp [format_duration, he]
    · simp [format_duration, he, hs]
  · intro now s hp
    by_cases he : s = ""
    · simp [format_upload_date, he]
    · by_cases hna : s = "NA"
      · simp [format_upload_date, he, hna]
      · simp [format_upload_date, he, hna, hp]

/-- Witness for C7 amended on concrete unparseable inputs. -/
theorem C7_formatters_total_witness :
    format_duration (DurVal.str "abc") = "-"
    ∧ format_upload_date 0 (some "20231301") = "-" :=
  ⟨C7_formatters_total.2.2.2.2.2.2.1 "abc" (by decide),
   C7_formatters_total.2.2.2.2.2.2.2.2.2.2 0 "20231301" (by decide)⟩

/-- C10: `format_views` returns `'-'` for `None` or `0`; for
`views >= 1_000_000` it returns the views divided by one million
rendered with one decimal place (the float division `views/1_000_000`
formatted by `:.1f`, modelled exactly as binary64 rounding followed by
correctly-rounded one-decimal conversion) followed by `'M'`; for
`1_000 <= views < 1_000_000` it returns the views divided by one
thousand rounded to an integer (half-even, as CPython `:.0f`) followed
by `'K'` — so `999999` formats as `'1000K'` — and otherwise the decimal
representation of the value. Concrete anchors pin the float model to
CPython's outputs: `1050000 -> '1.1M'` (the float above the `1.05` tie
rounds up), `1150000 -> '1.1M'` (the float below the `1.15` tie rounds
down), `1250000 -> '1.2M'` (`1.25` is exact, decimal tie goes to even),
`1500000 -> '1.5M'`. -/
theorem C10_format_views_branches :
    (format_views ViewsVal.none = Except.ok "-")
    ∧ (format_views (ViewsVal.int 0) = Except.ok "-")
    ∧ (∀ n : Int, 1000000 ≤ n →
        format_views (ViewsVal.int n) =
          Except.ok (format_float_div_million_1f n.toNat ++ "M"))
    ∧ (∀ n : Int, 1000 ≤ n → n < 1000000 →
        format_views (ViewsVal.int n) =
          Except.ok (toString (round_half_even n 1000) ++ "K"))
    ∧ (format_views (ViewsVal.int 999999) = Except.ok "1000K")
    ∧ (format_views (ViewsVal.int 1050000) = Except.ok "1.1M")
    ∧ (format_views (ViewsVal.int 1150000) = Except.ok "1.1M")
    ∧ (format_views (ViewsVal.int 1250000) = Except.ok "1.2M")
    ∧ (format_views (ViewsVal.int 1500000) = Except.ok "1.5M")
    ∧ (∀ n : Int, n ≠ 0 → n < 1000 →
        format_views (ViewsVal.int n) = Except.ok (toString n)) := by
  refine ⟨rfl, rfl, ?_, ?_, rfl, rfl, rfl, rfl, rfl, ?_⟩
  · intro n h1
    have h0 : ¬ n = 0 := by omega
    simp [format_views, h0, h1]
  · intro n h1 h2
    have h0 : ¬ n = 0 := by omega
    have h3 : ¬ 1000000 ≤ n := by omega
    simp [format_views, h0, h3, h1]
  · intro n h0 h2
    have h3 : ¬ 1000000 ≤ n := by omega
    have h4 : ¬ 1000 ≤ n := by omega
    simp [format_views, h0, h3, h4]

/-- Witness for C10 on a concrete view count in each guarded branch. -/
theorem C10_format_views_branches_witness :
    format_views (ViewsVal.int 1500000) =
      Except.ok (format_float_div_million_1f 1500000 ++ "M")
    ∧ format_views (ViewsVal.int 2500) =
        Except.ok (toString (round_half_even 2500 1000) ++ "K")
    ∧ format_views (ViewsVal.int (-5)) = Except.ok (toString (-5 : Int)) :=
  ⟨C10_format_views_branches.2.2.1 1500000 (by decide),
   C10_format_views_branches.2.2.2.1 2500 (by decide) (by decide),
   C10_format_views_branches.2.2.2.2.2.2.2.2.2 (-5) (by decide) (by decide)⟩

end Tracker
